import Mathlib

/-!
Verification of the Catch mini-game core (src/Projects/Catch/scripts/catch.js):
a Tween wrapper over the host animation driver, and the CatchFall controller
state machine. The host reactive values (distances, vertical positions, mouth
openness) are live signals owned by the engine; every place the source calls
pinLastValue we take the sampled value as an explicit input. Tween instances
are stored in an append-only list and referenced by index, which models the
JavaScript object references held in each item.tween field.
-/

namespace CatchGame

/-! ## Constants (catch.js lines 6 to 15) -/

def INTERVAL : Nat := 250

def RANGE : Rat := 6 / 100

def BOTTOM : Rat := -(7 / 10)

def SPEED : Rat := 3

def MOUTH_OPEN : Rat := 12 / 100

/-! ## Tween (catch.js lines 89 to 131) -/

/-- The valid ease type strings of the host easing catalog, from the comment
block at catch.js lines 40 to 84. -/
def validEaseNames : List String :=
  ["linear",
   "easeInBounce", "easeOutBounce",
   "easeInBack", "easeOutBack",
   "easeInCirc", "easeOutCirc",
   "easeInCubic", "easeOutCubic",
   "easeInElastic", "easeOutElastic",
   "easeInExpo", "easeOutExpo",
   "easeInOutBack", "easeInOutBounce",
   "easeInOutCirc", "easeInOutElastic",
   "easeInOutExpo", "easeInOutQuad",
   "easeInOutQuart", "easeInOutSine",
   "easeInQuad", "easeOutQuad",
   "easeInQuart", "easeOutQuart",
   "easeInQuint", "easeOutQuint",
   "easeInSine", "easeOutSine"]

/-- The host time driver held in this.driver: parameters passed at creation
plus a running flag toggled by start and stop. -/
structure DriverRec where
  durationMilliseconds : Rat
  loopCountInf : Bool
  loopCountVal : Int
  mirror : Bool
  running : Bool
deriving DecidableEq, Repr

/-- The completion subscription held in this.sub. -/
structure SubRec where
  subscribed : Bool
deriving DecidableEq, Repr

/-- The host sampler held in this.sampler: which easing curve was resolved,
and the interpolation endpoints. -/
structure SamplerRec where
  easeKind : String
  startVal : Rat
  endVal : Rat
deriving DecidableEq, Repr

/-- The fields of a Tween instance. After Kill, driver, sampler and animation
are null; sub is kept (only unsubscribed). -/
structure TweenObj where
  driver : Option DriverRec
  sampler : Option SamplerRec
  sub : Option SubRec
  animationLive : Bool
deriving DecidableEq, Repr

/-- Animation.samplers[ease](startVal, endVal): succeeds when ease names a
catalog entry; otherwise the indexing yields undefined and calling it throws,
modelled as an error. -/
def samplersLookup (ease : String) (s e : Rat) : Except String SamplerRec :=
  if validEaseNames.contains ease then
    Except.ok { easeKind := ease, startVal := s, endVal := e }
  else
    Except.error "TypeError: Animation.samplers[ease] is not a function"

/-- The try/catch of the Tween constructor (catch.js lines 101 to 108): on a
throw, fall back to Animation.samplers.linear(startVal, endVal). -/
def mkSampler (ease : String) (s e : Rat) : SamplerRec :=
  match samplersLookup ease s e with
  | Except.ok smp => smp
  | Except.error _ => { easeKind := "linear", startVal := s, endVal := e }

/-- The Tween constructor (catch.js lines 92 to 118): builds the driver with
loopCount -1 mapped to Infinity, resolves the sampler with linear fallback,
subscribes the completion callback when one is given, and starts the driver. -/
def mkTweenObj (startVal endVal durationSec : Rat) (loopCount : Int) (mirror : Bool)
    (ease : String) (hasCallback : Bool) : TweenObj :=
  { driver := some { durationMilliseconds := durationSec * 1000,
                     loopCountInf := loopCount == -1,
                     loopCountVal := loopCount,
                     mirror := mirror,
                     running := true },
    sampler := some (mkSampler ease startVal endVal),
    sub := if hasCallback then some { subscribed := true } else none,
    animationLive := true }

/-- Observable side effects of a Kill call. -/
structure KillEffects where
  driverStopped : Bool
  unsubscribed : Bool
deriving DecidableEq, Repr

/-- Tween.Kill (catch.js lines 120 to 130): this.driver.stop() throws when
driver is already null; otherwise the sub is unsubscribed when present, and
animation, driver and sampler are nulled (sub itself is not nulled). -/
def tweenKill (t : TweenObj) : Except String (TweenObj × KillEffects) :=
  match t.driver with
  | none => Except.error "TypeError: cannot read property stop of null"
  | some _ =>
      Except.ok ({ driver := none,
                   sampler := none,
                   sub := t.sub.map (fun _ => { subscribed := false }),
                   animationLive := false },
                 { driverStopped := true, unsubscribed := t.sub.isSome })

/-- Modelled from the spec: the host linear interpolator
Animation.samplers.linear, which is not part of this repository; the spec
describes the fallback as linear interpolation from start to end over the
duration, sampled here at normalized progress t. -/
def linearEval (s e t : Rat) : Rat := s + (e - s) * t

/-! ## Data model of the controller -/

/-- A reactive scalar slot of a transform: either a plain written constant or
a binding to the live output of the tween with the given store index. -/
inductive RVal where
  | const (q : Rat)
  | anim (tid : Nat)
deriving DecidableEq, Repr

/-- Completion callbacks that the controller registers on tweens: the fall
tween calls resetAtBottom, the shrink tween calls resetFallingItem on the
captured item (identified by its index in the pool list). -/
inductive Cb where
  | atBottom
  | resetItem (idx : Nat)
deriving DecidableEq, Repr

/-- A Tween as recorded in the controller-side store: the constructor
arguments, the resolved ease kind, the registered callback, and whether Kill
has been called on it. -/
structure TweenRec where
  startVal : Rat
  endVal : Rat
  durationSec : Rat
  loopCountArg : Int
  mirror : Bool
  easeArg : String
  easeKind : String
  cb : Option Cb
  disposed : Bool
deriving DecidableEq, Repr

def mkTweenRec (s e dur : Rat) (loops : Int) (mir : Bool) (ease : String)
    (cb : Option Cb) : TweenRec :=
  { startVal := s, endVal := e, durationSec := dur, loopCountArg := loops,
    mirror := mir, easeArg := ease, easeKind := (mkSampler ease s e).easeKind,
    cb := cb, disposed := false }

/-- A pool item: hidden flag, falling flag, the attached tween (store index),
and its transform slots x, y and scale. -/
structure Item where
  hidden : Bool
  falling : Bool
  tween : Option Nat
  x : Rat
  y : RVal
  scale : RVal × RVal × RVal
deriving DecidableEq, Repr

/-- A pool item as delivered by the host before the controller touches it:
not falling, no tween attached. -/
def freshItem : Item :=
  { hidden := false, falling := false, tween := none, x := 0,
    y := RVal.const 0, scale := (RVal.const 1, RVal.const 1, RVal.const 1) }

/-- Mark the tween at index t of the store as disposed (the effect of
item.tween.Kill() on the store). -/
def setTweenDisposed : List TweenRec → Nat → List TweenRec
  | [], _ => []
  | r :: rest, 0 => { r with disposed := true } :: rest
  | r :: rest, Nat.succ n => r :: setTweenDisposed rest n

/-! ## Controller behaviors (catch.js lines 244 to 317) -/

/-- resetFallingItem (catch.js lines 254 to 265): hide, set y to 0, restore
unit scale, Kill and null the tween when present, clear falling. -/
def resetFallingItem (item : Item) (tw : List TweenRec) : Item × List TweenRec :=
  let tw' := match item.tween with
    | some t => setTweenDisposed tw t
    | none => tw
  ({ item with hidden := true,
               y := RVal.const 0,
               scale := (RVal.const 1, RVal.const 1, RVal.const 1),
               tween := none,
               falling := false }, tw')

/-- Apply resetFallingItem to the item at index idx of the pool list. -/
def resetItemAt (idx : Nat) (items : List Item) (tw : List TweenRec) :
    List Item × List TweenRec :=
  match items.get? idx with
  | none => (items, tw)
  | some item =>
      let p := resetFallingItem item tw
      (items.set idx p.1, p.2)

/-- The scan loop of findLowestItem (catch.js lines 303 to 317) over the
sampled y values: m is the running minimum (starting at 0), lowest the index
of the item that last strictly lowered it. -/
def findLowestAux : List Rat → Nat → Rat → Option Nat → Option Nat
  | [], _, _, lowest => lowest
  | y :: rest, i, m, lowest =>
      if y < m then findLowestAux rest (i + 1) y (some i)
      else findLowestAux rest (i + 1) m lowest

/-- findLowestItem: index of the item whose sampled y is strictly below 0 and
minimal, the earliest such index on ties; none when no sampled y is below 0. -/
def findLowestItem (ys : List Rat) : Option Nat := findLowestAux ys 0 0 none

/-- resetAtBottom (catch.js lines 244 to 251): reset the lowest item when
there is one. ys are the sampled transform.y values of the pool items. -/
def resetAtBottom (items : List Item) (tw : List TweenRec) (ys : List Rat) :
    List Item × List TweenRec :=
  match findLowestItem ys with
  | some i => resetItemAt i items tw
  | none => (items, tw)

/-- Sampling this.eating (catch.js line 166): mouth.openness.gt(MOUTH_OPEN). -/
def eatingSample (openness : Rat) : Bool := decide (MOUTH_OPEN < openness)

/-- eatFallingItem (catch.js lines 268 to 287) on the item at index idx: when
the sampled eating predicate holds, clear falling, Kill and null any attached
tween, attach a fresh shrink tween (1 to 0 over 0.25 s, one loop, no mirror,
easeInQuad, completion resets this item) and bind the scale to it. -/
def eatFallingItem (eating : Bool) (idx : Nat) (items : List Item)
    (tw : List TweenRec) : List Item × List TweenRec :=
  if eating then
    match items.get? idx with
    | none => (items, tw)
    | some item =>
        let tw1 := match item.tween with
          | some t => setTweenDisposed tw t
          | none => tw
        let tid := tw1.length
        let tw2 := tw1 ++ [mkTweenRec 1 0 (1 / 4) 1 false "easeInQuad"
                             (some (Cb.resetItem idx))]
        let item' := { item with falling := false,
                                 tween := some tid,
                                 scale := (RVal.anim tid, RVal.anim tid, RVal.anim tid) }
        (items.set idx item', tw2)
  else (items, tw)

/-- Whether this.dists[i].pinLastValue() < RANGE, given the sampled distance
list (an out-of-range index compares undefined, which is never below RANGE). -/
def distInRange (dists : List Rat) (i : Nat) : Bool :=
  match dists.get? i with
  | some d => decide (d < RANGE)
  | none => false

/-- The scan loop of catchFallingItem (catch.js lines 290 to 300), carrying
the absolute index i of the head item. -/
def catchFromIdx : List Item → List Rat → Nat → Option Nat
  | [], _, _ => none
  | item :: rest, dists, i =>
      if item.falling && distInRange dists i then some i
      else catchFromIdx rest dists (i + 1)

/-- catchFallingItem: the first index whose item is falling and whose sampled
distance is below RANGE; none otherwise. -/
def catchFallingItem (items : List Item) (dists : List Rat) : Option Nat :=
  catchFromIdx items dists 0

/-- Lines 232 to 236 of the Tick case: scan for a caught item and, when one is
found, run eatFallingItem on it (which itself checks the eating sample). -/
def catchPhase (items : List Item) (tw : List TweenRec) (dists : List Rat)
    (eating : Bool) : List Item × List TweenRec :=
  match catchFallingItem items dists with
  | some i => eatFallingItem eating i items tw
  | none => (items, tw)

/-- Math.floor(Random.random() * this.items.length). -/
def randIndex (rnd : Rat) (len : Nat) : Int := Int.floor (rnd * (len : Rat))

/-- Lines 221 to 230 of the Tick case: pick the random index; reading the
falling field of a nonexistent element throws; a non-falling item is marked
falling, unhidden, given a fresh fall tween (0 to BOTTOM over SPEED seconds,
one loop, no mirror, easeInQuad, completion resetAtBottom), a randomized x
offset, and its y bound to the tween output. The returned flag records
whether the previously attached tween, if any, was already disposed at the
moment the new tween was assigned. -/
def startFallStep (items : List Item) (tw : List TweenRec) (rnd xRnd : Rat) :
    Except String (List Item × List TweenRec × Bool) :=
  let r : Int := randIndex rnd items.length
  match (if 0 ≤ r then items.get? r.toNat else none) with
  | none => Except.error "TypeError: cannot read property falling of undefined"
  | some item =>
      if item.falling then Except.ok (items, tw, true)
      else
        let okd := match item.tween with
          | none => true
          | some t =>
              match tw.get? t with
              | some rec0 => rec0.disposed
              | none => true
        let tid := tw.length
        let tw2 := tw ++ [mkTweenRec 0 BOTTOM SPEED 1 false "easeInQuad"
                            (some Cb.atBottom)]
        let item' := { item with falling := true,
                                 hidden := false,
                                 tween := some tid,
                                 x := xRnd * (2 / 10) - 1 / 10,
                                 y := RVal.anim tid }
        Except.ok (items.set r.toNat item', tw2, okd)

/-- The whole Tick case body (catch.js lines 220 to 236). -/
def tickStep (items : List Item) (tw : List TweenRec) (rnd xRnd : Rat)
    (dists : List Rat) (eating : Bool) :
    Except String (List Item × List TweenRec × Bool) :=
  match startFallStep items tw rnd xRnd with
  | Except.error e => Except.error e
  | Except.ok (items1, tw1, okd) =>
      let p := catchPhase items1 tw1 dists eating
      Except.ok (p.1, p.2, okd)

/-! ## The controller state machine (catch.js lines 136 to 241) -/

inductive GState where
  | Invalid
  | Init
  | WaitPool
  | Tick
  | Catch
deriving DecidableEq, Repr

/-- Controller state: the state enum, the nullable pool list, and the store
of every tween created so far. -/
structure MState where
  gstate : GState
  items : Option (List Item)
  tweens : List TweenRec
deriving DecidableEq, Repr

/-- External events delivered to the controller: an interval-timer firing of
StateMachine (with the sampled random numbers, distances and mouth openness),
the resolution of the pool promise with n items, and the host-driven
completion of the tween at store index tid (with the sampled y values used by
a resetAtBottom callback). -/
inductive Event where
  | smTick (rnd xRnd : Rat) (dists : List Rat) (openness : Rat)
  | poolArrive (n : Nat)
  | complete (tid : Nat) (ys : List Rat)
deriving DecidableEq, Repr

/-- State after the CatchFall constructor: Invalid, items []. -/
def constructedState : MState :=
  { gstate := GState.Invalid, items := some [], tweens := [] }

/-- Start (catch.js lines 180 to 195): null the items, request the pool,
enter Init and start the interval timer. -/
def startStep (s : MState) : MState :=
  { s with gstate := GState.Init, items := none }

/-- Controller state right after new CatchFall().Start(). -/
def initialState : MState := startStep constructedState

/-- One StateMachine invocation (catch.js lines 198 to 241). The switch has
no Invalid case, WaitPool advances only once items is non-null (hiding every
item), Tick runs the tick body (reading this.items.length throws when items
is null), Catch does nothing. -/
def smTickStep (s : MState) (rnd xRnd : Rat) (dists : List Rat)
    (openness : Rat) : Except String (MState × Bool) :=
  match s.gstate with
  | GState.Invalid => Except.ok (s, true)
  | GState.Init => Except.ok ({ s with gstate := GState.WaitPool }, true)
  | GState.WaitPool =>
      match s.items with
      | none => Except.ok (s, true)
      | some its =>
          Except.ok ({ s with gstate := GState.Tick,
                              items := some (its.map (fun it => { it with hidden := true })) },
                     true)
  | GState.Tick =>
      match s.items with
      | none => Except.error "TypeError: cannot read property length of null"
      | some its =>
          match tickStep its s.tweens rnd xRnd dists (eatingSample openness) with
          | Except.error e => Except.error e
          | Except.ok (its2, tw2, okd) =>
              Except.ok ({ s with items := some its2, tweens := tw2 }, okd)
  | GState.Catch => Except.ok (s, true)

/-- A host completion notification for the tween at store index tid: the
callback runs only when the tween still exists, is not disposed (Kill
unsubscribes the listener) and registered a callback. -/
def completeStep (s : MState) (tid : Nat) (ys : List Rat) :
    Except String (MState × Bool) :=
  match s.tweens.get? tid with
  | none => Except.ok (s, true)
  | some r =>
      if r.disposed then Except.ok (s, true)
      else
        match r.cb with
        | none => Except.ok (s, true)
        | some Cb.atBottom =>
            match s.items with
            | none => Except.error "TypeError: cannot read property length of null"
            | some its =>
                let p := resetAtBottom its s.tweens ys
                Except.ok ({ s with items := some p.1, tweens := p.2 }, true)
        | some (Cb.resetItem j) =>
            match s.items with
            | none => Except.ok (s, true)
            | some its =>
                let p := resetItemAt j its s.tweens
                Except.ok ({ s with items := some p.1, tweens := p.2 }, true)

/-- One controller step on one external event. The Bool is true when every
tween-field assignment performed by the step found the previously attached
tween already disposed. -/
def stepE (s : MState) : Event → Except String (MState × Bool)
  | Event.smTick rnd xRnd dists openness => smTickStep s rnd xRnd dists openness
  | Event.poolArrive n =>
      Except.ok ({ s with items := some (List.replicate n freshItem) }, true)
  | Event.complete tid ys => completeStep s tid ys

/-- Run a list of events, conjoining the per-step disposal-discipline flags. -/
def runOk : MState → List Event → Except String (MState × Bool)
  | s, [] => Except.ok (s, true)
  | s, e :: rest =>
      match stepE s e with
      | Except.error msg => Except.error msg
      | Except.ok (s', ok1) =>
          match runOk s' rest with
          | Except.error msg => Except.error msg
          | Except.ok (s'', ok2) => Except.ok (s'', ok1 && ok2)

/-- The disposal-discipline verdict of a run: some flag when the run does not
throw, none when it throws. -/
def runDiscipline (s : MState) (evs : List Event) : Option Bool :=
  match runOk s evs with
  | Except.ok p => some p.2
  | Except.error _ => none

/-- Rank of a controller state along the documented progression
Invalid, Init, WaitPool, Tick. -/
def stateRank : GState → Nat
  | GState.Invalid => 0
  | GState.Init => 1
  | GState.WaitPool => 2
  | GState.Tick => 3
  | GState.Catch => 4

/-! ## Concrete scenario data -/

/-- A pool item that is currently falling, with no tween recorded in the
store; used to exercise the scan paths on concrete inputs. -/
def fallingFreshItem : Item := { freshItem with falling := true }

/-- Item 0 of the bottom-out scenario: falling, sampled y at -(3/10). -/
def c2ItemA : Item := { freshItem with falling := true, hidden := false }

/-- Item 1 of the bottom-out scenario: not falling (as while a shrink tween
plays after an eat), yet with the lowest sampled y, -(1/2). -/
def c2ItemB : Item := freshItem

def c2Items : List Item := [c2ItemA, c2ItemB]

def c2Ys : List Rat := [-(3 / 10), -(1 / 2)]

/-- Event schedule exhibiting the fall-start disposal leak on a one-item
pool: the item falls (tick 4), is eaten while in range with the mouth open
(tick 5, which kills the fall tween and attaches a shrink tween), and before
the shrink tween completes the random pick selects the now non-falling item
again (tick 6), assigning a new fall tween over the still undisposed shrink
tween. -/
def c1Events : List Event :=
  [Event.smTick 0 0 [] 0,
   Event.poolArrive 1,
   Event.smTick 0 0 [] 0,
   Event.smTick 0 0 [1] 0,
   Event.smTick 0 0 [3 / 100] (2 / 10),
   Event.smTick 0 0 [3 / 100] 0]

/-- A live Tween as the eat path constructs it (shrink from 1 to 0 over a
quarter second, one loop, easeInQuad, with a completion callback). -/
def c5Tween : TweenObj := mkTweenObj 1 0 (1 / 4) 1 false "easeInQuad" true

/-- The Tween object after one Kill call: driver, sampler and animation
nulled, sub kept but unsubscribed. -/
def c5KilledTween : TweenObj :=
  { driver := none, sampler := none, sub := some { subscribed := false },
    animationLive := false }

/-- Three-item pool with only item 1 falling, and sampled distances putting
exactly item 1 within eating range. -/
def c3Items : List Item := [freshItem, fallingFreshItem, freshItem]

def c3Dists : List Rat := [1, 3 / 100, 1]

/-! ## Evaluation lemmas for concrete sampled values -/

lemma mem_easeInQuad : "easeInQuad" ∈ validEaseNames := by decide

lemma not_mem_bogus : "bogus" ∉ validEaseNames := by decide

lemma eatingSample_two_tenths : eatingSample (2 / 10) = true := by
  simp only [eatingSample, decide_eq_true_eq, MOUTH_OPEN]
  norm_num

lemma eatingSample_zero : eatingSample 0 = false := by
  simp only [eatingSample, decide_eq_false_iff_not, MOUTH_OPEN]
  norm_num

lemma distInRange_far : distInRange [1] 0 = false := by
  simp only [distInRange, List.get?, RANGE, decide_eq_false_iff_not]
  norm_num

lemma distInRange_near : distInRange [3 / 100] 0 = true := by
  simp only [distInRange, List.get?, RANGE, decide_eq_true_eq]
  norm_num

lemma randIndex_zero_one : randIndex 0 1 = 0 := by
  simp [randIndex]

/-! ## Lemmas about the tween store and the helper scans -/

lemma setTweenDisposed_length (tw : List TweenRec) (t : Nat) :
    (setTweenDisposed tw t).length = tw.length := by
  induction tw generalizing t with
  | nil => rfl
  | cons r rest ih =>
      cases t with
      | zero => rfl
      | succ n => simp [setTweenDisposed, ih]

lemma setTweenDisposed_get_self (tw : List TweenRec) (t : Nat) :
    (setTweenDisposed tw t).get? t =
      (tw.get? t).map (fun r => { r with disposed := true }) := by
  induction tw generalizing t with
  | nil => cases t <;> rfl
  | cons r rest ih =>
      cases t with
      | zero => rfl
      | succ n => simpa [setTweenDisposed, List.get?] using ih n

lemma mkSampler_of_mem {ease : String} (h : ease ∈ validEaseNames) (s e : Rat) :
    mkSampler ease s e = { easeKind := ease, startVal := s, endVal := e } := by
  simp [mkSampler, samplersLookup, h]

lemma mkSampler_of_not_mem {ease : String} (h : ease ∉ validEaseNames) (s e : Rat) :
    mkSampler ease s e = { easeKind := "linear", startVal := s, endVal := e } := by
  simp [mkSampler, samplersLookup, h]

lemma findLowestAux_of_ge (ys : List Rat) :
    ∀ (off : Nat) (m : Rat) (low : Option Nat), (∀ y ∈ ys, ¬ y < m) →
      findLowestAux ys off m low = low := by
  induction ys with
  | nil => intro off m low _; rfl
  | cons y rest ih =>
      intro off m low h
      have hy : ¬ y < m := h y (List.mem_cons_self y rest)
      simp only [findLowestAux, if_neg hy]
      exact ih (off + 1) m low (fun z hz => h z (List.mem_cons_of_mem y hz))

lemma findLowestAux_min (ys : List Rat) :
    ∀ (i : Nat) (yi : Rat), ys.get? i = some yi →
    ∀ (off : Nat) (m : Rat) (low : Option Nat),
      yi < m →
      (∀ j yj, j < i → ys.get? j = some yj → yi < yj) →
      (∀ j yj, ys.get? j = some yj → yi ≤ yj) →
      findLowestAux ys off m low = some (off + i) := by
  induction ys with
  | nil => intro i yi hget; simp [List.get?] at hget
  | cons y rest ih =>
      intro i yi hget off m low hm hfirst hall
      cases i with
      | zero =>
          have hy : y = yi := by simpa [List.get?] using hget
          subst hy
          simp only [findLowestAux, if_pos hm]
          rw [findLowestAux_of_ge]
          · simp
          · intro z hz
            obtain ⟨n, hn⟩ := List.mem_iff_get?.mp hz
            exact not_lt.mpr (hall (n + 1) z (by simpa [List.get?] using hn))
      | succ k =>
          have hgetr : rest.get? k = some yi := by simpa [List.get?] using hget
          have hfirst' : ∀ j yj, j < k → rest.get? j = some yj → yi < yj :=
            fun j yj hj hg =>
              hfirst (j + 1) yj (Nat.succ_lt_succ hj) (by simpa [List.get?] using hg)
          have hall' : ∀ j yj, rest.get? j = some yj → yi ≤ yj :=
            fun j yj hg => hall (j + 1) yj (by simpa [List.get?] using hg)
          by_cases hy : y < m
          · simp only [findLowestAux, if_pos hy]
            have h1 : yi < y := hfirst 0 y (Nat.succ_pos k) (by simp [List.get?])
            rw [ih k yi hgetr (off + 1) y (some off) h1 hfirst' hall']
            congr 1
            omega
          · simp only [findLowestAux, if_neg hy]
            rw [ih k yi hgetr (off + 1) m low hm hfirst' hall']
            congr 1
            omega

lemma distInRange_iff (dists : List Rat) (k : Nat) :
    distInRange dists k = true ↔ ∃ d, dists.get? k = some d ∧ d < RANGE := by
  unfold distInRange
  cases h : dists.get? k with
  | none => simp
  | some d => simp [decide_eq_true_eq]

lemma catchFromIdx_eq_some (items : List Item) :
    ∀ (dists : List Rat) (off i : Nat) (item : Item) (d : Rat),
      items.get? i = some item → item.falling = true →
      dists.get? (off + i) = some d → d < RANGE →
      (∀ j itj, j < i → items.get? j = some itj → itj.falling = true →
        ∀ dj, dists.get? (off + j) = some dj → ¬ dj < RANGE) →
      catchFromIdx items dists off = some (off + i) := by
  induction items with
  | nil => intro dists off i item d hget; simp [List.get?] at hget
  | cons it rest ih =>
      intro dists off i item d hget hfall hd hdr hnone
      cases i with
      | zero =>
          have hit : it = item := by simpa [List.get?] using hget
          subst hit
          have hdist : distInRange dists off = true :=
            (distInRange_iff dists off).mpr ⟨d, by simpa using hd, hdr⟩
          simp [catchFromIdx, hfall, hdist]
      | succ k =>
          have hcond : (it.falling && distInRange dists off) = false := by
            cases hf : it.falling with
            | false => rfl
            | true =>
                cases hdi : distInRange dists off with
                | false => rfl
                | true =>
                    obtain ⟨d0, hd0, hd0r⟩ := (distInRange_iff dists off).mp hdi
                    exact absurd hd0r
                      (hnone 0 it (Nat.succ_pos k) (by simp [List.get?]) hf d0
                        (by simpa using hd0))
          simp only [catchFromIdx, hcond, Bool.false_eq_true, if_false]
          have hgetr : rest.get? k = some item := by simpa [List.get?] using hget
          have hd' : dists.get? (off + 1 + k) = some d := by
            have : off + 1 + k = off + (k + 1) := by omega
            rw [this]; exact hd
          have hnone' : ∀ j itj, j < k → rest.get? j = some itj → itj.falling = true →
              ∀ dj, dists.get? (off + 1 + j) = some dj → ¬ dj < RANGE := by
            intro j itj hj hg hf dj hdj
            have : off + 1 + j = off + (j + 1) := by omega
            rw [this] at hdj
            exact hnone (j + 1) itj (Nat.succ_lt_succ hj)
              (by simpa [List.get?] using hg) hf dj hdj
          rw [ih dists (off + 1) k item d hgetr hfall hd' hdr hnone']
          congr 1
          omega

lemma catchFromIdx_eq_none (items : List Item) :
    ∀ (dists : List Rat) (off : Nat),
      (∀ j itj, items.get? j = some itj → itj.falling = true →
        ∀ dj, dists.get? (off + j) = some dj → ¬ dj < RANGE) →
      catchFromIdx items dists off = none := by
  induction items with
  | nil => intro dists off _; rfl
  | cons it rest ih =>
      intro dists off hnone
      have hcond : (it.falling && distInRange dists off) = false := by
        cases hf : it.falling with
        | false => rfl
        | true =>
            cases hdi : distInRange dists off with
            | false => rfl
            | true =>
                obtain ⟨d0, hd0, hd0r⟩ := (distInRange_iff dists off).mp hdi
                exact absurd hd0r
                  (hnone 0 it (by simp [List.get?]) hf d0 (by simpa using hd0))
      simp only [catchFromIdx, hcond, Bool.false_eq_true, if_false]
      exact ih dists (off + 1) (fun j itj hg hf dj hdj =>
        hnone (j + 1) itj (by simpa [List.get?] using hg) hf dj
          (by rw [show off + (j + 1) = off + 1 + j by omega]; exact hdj))

lemma completeStep_shape (s : MState) (tid : Nat) (ys : List Rat) :
    completeStep s tid ys =
      Except.error "TypeError: cannot read property length of null" ∨
    ∃ its tw, completeStep s tid ys =
      Except.ok ({ s with items := its, tweens := tw }, true) := by
  unfold completeStep
  repeat' split
  all_goals first
    | exact Or.inl rfl
    | exact Or.inr ⟨_, _, rfl⟩

lemma stepE_gstate_cases {s : MState} {e : Event} {s' : MState} {b : Bool}
    (h : stepE s e = Except.ok (s', b)) :
    s'.gstate = s.gstate ∨
    (s.gstate = GState.Init ∧ s'.gstate = GState.WaitPool) ∨
    (s.gstate = GState.WaitPool ∧ s'.gstate = GState.Tick ∧ s.items ≠ none) := by
  cases e with
  | poolArrive n =>
      left
      have h1 : ({ s with items := some (List.replicate n freshItem) } : MState) = s' :=
        congrArg Prod.fst (Except.ok.inj h)
      rw [← h1]
  | complete tid ys =>
      left
      rcases completeStep_shape s tid ys with hsh | ⟨its, tw, hsh⟩
      · rw [show stepE s (Event.complete tid ys) = completeStep s tid ys from rfl, hsh] at h
        exact absurd h (by simp)
      · rw [show stepE s (Event.complete tid ys) = completeStep s tid ys from rfl, hsh] at h
        have h1 : ({ s with items := its, tweens := tw } : MState) = s' :=
          congrArg Prod.fst (Except.ok.inj h)
        rw [← h1]
  | smTick rnd xRnd dists op =>
      cases hgs : s.gstate with
      | Invalid =>
          left
          simp only [stepE, smTickStep, hgs] at h
          have h1 : s = s' := congrArg Prod.fst (Except.ok.inj h)
          rw [← h1, hgs]
      | Init =>
          right; left
          simp only [stepE, smTickStep, hgs] at h
          have h1 : ({ s with gstate := GState.WaitPool } : MState) = s' :=
            congrArg Prod.fst (Except.ok.inj h)
          exact ⟨rfl, by rw [← h1]⟩
      | WaitPool =>
          simp only [stepE, smTickStep, hgs] at h
          split at h
          · left
            have h1 : s = s' := congrArg Prod.fst (Except.ok.inj h)
            rw [← h1, hgs]
          · right; right
            rename_i its hit
            have h1 : ({ s with
                         gstate := GState.Tick,
                         items := some (its.map (fun it => { it with hidden := true })) } :
                MState) = s' :=
              congrArg Prod.fst (Except.ok.inj h)
            exact ⟨rfl, by rw [← h1], by rw [hit]; simp⟩
      | Tick =>
          left
          simp only [stepE, smTickStep, hgs] at h
          split at h
          · exact absurd h (by simp)
          · split at h
            · exact absurd h (by simp)
            · exact (congrArg (fun p => p.1.gstate) (Except.ok.inj h)).symm
      | Catch =>
          left
          simp only [stepE, smTickStep, hgs] at h
          have h1 : s = s' := congrArg Prod.fst (Except.ok.inj h)
          rw [← h1, hgs]

lemma stepE_waitpool_iff {s : MState} {rnd xRnd op : Rat} {dists : List Rat}
    {s' : MState} {b : Bool} (hgs : s.gstate = GState.WaitPool)
    (h : stepE s (Event.smTick rnd xRnd dists op) = Except.ok (s', b)) :
    (s'.gstate = GState.Tick ↔ s.items ≠ none) := by
  simp only [stepE, smTickStep, hgs] at h
  split at h
  · rename_i hit
    have h1 : s = s' := congrArg Prod.fst (Except.ok.inj h)
    rw [← h1, hgs, hit]
    simp
  · rename_i its hit
    have h1 : ({ s with
                 gstate := GState.Tick,
                 items := some (its.map (fun it => { it with hidden := true })) } :
        MState) = s' :=
      congrArg Prod.fst (Except.ok.inj h)
    rw [← h1, hit]
    simp

lemma runOk_ncatch : ∀ (evs : List Event) (s s' : MState) (b : Bool),
    s.gstate ≠ GState.Catch → runOk s evs = Except.ok (s', b) →
    s'.gstate ≠ GState.Catch := by
  intro evs
  induction evs with
  | nil =>
      intro s s' b h hr
      have h1 : s = s' := congrArg Prod.fst (Except.ok.inj hr)
      rwa [← h1]
  | cons e rest ih =>
      intro s s' b h hr
      simp only [runOk] at hr
      split at hr
      · exact absurd hr (by simp)
      · rename_i s1 b1 hstep
        split at hr
        · exact absurd hr (by simp)
        · rename_i s2 b2 hrest
          have hp : s1.gstate ≠ GState.Catch := by
            rcases stepE_gstate_cases hstep with h3 | ⟨_, h3⟩ | ⟨_, h3, _⟩
            · rw [h3]; exact h
            · rw [h3]; simp
            · rw [h3]; simp
          have h2 : s2 = s' := congrArg Prod.fst (Except.ok.inj hr)
          rw [← h2]
          exact ih s1 s2 b2 hp hrest

/-! ## Claim theorems -/

/-- Claim C4: resetting an item always leaves it in the rest pose: hidden,
vertical position written to the constant 0, unit scale, not falling, no
tween attached, and the previously attached tween, if any, is disposed in
the store before the field is cleared. The same routine serves both reset
paths: the eat-completion callback resets through resetItemAt and the
bottom-out callback resets the found item through resetAtBottom, both
delegating to resetFallingItem. -/
theorem resetFallingItem_rest_pose (item : Item) (tw : List TweenRec) :
    (resetFallingItem item tw).1.hidden = true ∧
    (resetFallingItem item tw).1.y = RVal.const 0 ∧
    (resetFallingItem item tw).1.scale = (RVal.const 1, RVal.const 1, RVal.const 1) ∧
    (resetFallingItem item tw).1.falling = false ∧
    (resetFallingItem item tw).1.tween = none ∧
    (∀ t, item.tween = some t →
      (resetFallingItem item tw).2.get? t =
        (tw.get? t).map (fun r => { r with disposed := true })) ∧
    (∀ idx items itm, items.get? idx = some itm →
      resetItemAt idx items tw =
        (items.set idx (resetFallingItem itm tw).1, (resetFallingItem itm tw).2)) ∧
    (∀ items ys i itm, findLowestItem ys = some i → items.get? i = some itm →
      resetAtBottom items tw ys =
        (items.set i (resetFallingItem itm tw).1, (resetFallingItem itm tw).2)) := by
  refine ⟨rfl, rfl, rfl, rfl, rfl, ?_, ?_, ?_⟩
  · intro t ht
    simp only [resetFallingItem, ht]
    exact setTweenDisposed_get_self tw t
  · intro idx items itm h
    simp only [resetItemAt, h]
  · intro items ys i itm hf h
    simp only [resetAtBottom, hf, resetItemAt, h]

/-- Claim C10: resetFallingItem never writes the horizontal offset: the x
slot keeps its value (the randomized offset written at the last fall start),
and the result differs from the input item in exactly the hidden, y, scale,
tween and falling fields. -/
theorem resetFallingItem_preserves_x (item : Item) (tw : List TweenRec) :
    (resetFallingItem item tw).1.x = item.x ∧
    (resetFallingItem item tw).1 =
      { item with hidden := true, y := RVal.const 0,
                  scale := (RVal.const 1, RVal.const 1, RVal.const 1),
                  tween := none, falling := false } :=
  ⟨rfl, rfl⟩

/-- Claim C5 counterexample: Kill is not safe to call twice. The first Kill
of a live Tween succeeds (stopping the driver and unsubscribing the
listener), but the second Kill reads stop from the nulled driver and
throws. -/
theorem tweenKill_second_call_throws :
    tweenKill c5Tween =
      Except.ok (c5KilledTween, { driverStopped := true, unsubscribed := true }) ∧
    tweenKill c5KilledTween =
      Except.error "TypeError: cannot read property stop of null" :=
  ⟨rfl, rfl⟩

/-- Claim C5 amended: Kill on a Tween whose driver is live stops the driver,
unsubscribes the completion listener exactly when one was registered, and
nulls the animation, driver and sampler; but a second call is not safe: once
the driver is null, Kill throws instead of succeeding. -/
theorem tweenKill_amended (t : TweenObj) :
    (∀ d, t.driver = some d →
      tweenKill t = Except.ok
        ({ driver := none, sampler := none,
           sub := t.sub.map (fun _ => { subscribed := false }),
           animationLive := false },
         { driverStopped := true, unsubscribed := t.sub.isSome })) ∧
    (t.driver = none →
      tweenKill t = Except.error "TypeError: cannot read property stop of null") := by
  constructor
  · intro d hd
    simp [tweenKill, hd]
  · intro hd
    simp [tweenKill, hd]

/-- Claim C6: constructing a Tween with an ease name outside the host
catalog makes the raw sampler lookup throw, but the constructor catches it
and falls back to the linear sampler over the same endpoints; the
constructed tween still has a live driver (no exception reaches the caller),
and the linear interpolation runs monotonically from the start value at
progress 0 to the end value at progress 1. -/
theorem tween_invalid_ease_linear_fallback (ease : String) (s e dur : Rat)
    (loops : Int) (mir hasCb : Bool) (h : ease ∉ validEaseNames) :
    samplersLookup ease s e =
      Except.error "TypeError: Animation.samplers[ease] is not a function" ∧
    (mkTweenObj s e dur loops mir ease hasCb).sampler =
      some { easeKind := "linear", startVal := s, endVal := e } ∧
    (mkTweenObj s e dur loops mir ease hasCb).driver.isSome = true ∧
    linearEval s e 0 = s ∧
    linearEval s e 1 = e ∧
    (∀ t1 t2 : Rat, t1 ≤ t2 →
      (s ≤ e → linearEval s e t1 ≤ linearEval s e t2) ∧
      (e ≤ s → linearEval s e t2 ≤ linearEval s e t1)) := by
  refine ⟨by simp [samplersLookup, h], ?_, rfl, by simp [linearEval], ?_, ?_⟩
  · simp [mkTweenObj, mkSampler_of_not_mem h]
  · simp only [linearEval]
    ring
  · intro t1 t2 h12
    constructor
    · intro hse
      simp only [linearEval]
      nlinarith
    · intro hse
      simp only [linearEval]
      nlinarith

/-- Claim C6 witness: the concrete ease name "bogus" is outside the catalog
and yields the linear fallback sampler. -/
theorem tween_invalid_ease_linear_fallback_witness :
    (mkTweenObj 0 1 3 1 false "bogus" false).sampler =
      some { easeKind := "linear", startVal := 0, endVal := 1 } :=
  (tween_invalid_ease_linear_fallback "bogus" 0 1 3 1 false false not_mem_bogus).2.1

/-- Claim C9: the empty pool is unhandled. When the resolved item list is
empty, the Tick body computes random index 0, items[0] is nonexistent, and
reading its falling field fails (modelled as the thrown TypeError) instead
of the tick being skipped. -/
theorem empty_pool_tick_throws (tw : List TweenRec) (rnd xRnd : Rat)
    (dists : List Rat) (eating : Bool) (op : Rat) :
    tickStep [] tw rnd xRnd dists eating =
      Except.error "TypeError: cannot read property falling of undefined" ∧
    smTickStep { gstate := GState.Tick, items := some [], tweens := tw }
        rnd xRnd dists op =
      Except.error "TypeError: cannot read property falling of undefined" := by
  have h0 : randIndex rnd 0 = 0 := by simp [randIndex]
  constructor
  · simp [tickStep, startFallStep, h0, List.get?]
  · simp [smTickStep, tickStep, startFallStep, h0, List.get?]

/-- Claim C2 counterexample: the bottom-out reset does not restrict itself
to falling objects. With item 0 falling at sampled y -(3/10) and item 1 not
falling at sampled y -(1/2), the completion path resets item 1 — a
non-falling object — while the lowest falling object, item 0, is left
untouched and still falling. -/
theorem bottom_out_picks_non_falling_counterexample :
    c2ItemA.falling = true ∧
    c2ItemB.falling = false ∧
    c2Ys.get? 0 = some (-(3 / 10)) ∧
    (-(3 / 10) : Rat) < 0 ∧
    findLowestItem c2Ys = some 1 ∧
    (resetAtBottom c2Items [] c2Ys).1 = [c2ItemA, (resetFallingItem c2ItemB []).1] ∧
    (resetFallingItem c2ItemB []).1.hidden = true ∧
    (resetAtBottom c2Items [] c2Ys).1.get? 0 = some c2ItemA := by
  have hlow : findLowestItem c2Ys = some 1 := by
    norm_num [findLowestItem, findLowestAux, c2Ys]
  refine ⟨rfl, rfl, rfl, by norm_num, hlow, ?_, rfl, ?_⟩
  · simp only [resetAtBottom, hlow, resetItemAt, c2Items, List.get?]
    rfl
  · simp only [resetAtBottom, hlow, resetItemAt, c2Items, List.get?]

/-- Claim C2 amended: when a fall tween completes, the controller resets
exactly the globally lowest item among ALL pool items — falling or not —
namely the first index whose sampled vertical position is strictly below
zero and minimal, via the same resetFallingItem routine as the eating path;
when no sampled vertical position is negative, nothing is reset. -/
theorem bottom_out_resets_global_lowest (items : List Item) (tw : List TweenRec)
    (ys : List Rat) :
    (∀ i yi item, ys.get? i = some yi → yi < 0 →
      (∀ j yj, j < i → ys.get? j = some yj → yi < yj) →
      (∀ j yj, ys.get? j = some yj → yi ≤ yj) →
      items.get? i = some item →
      findLowestItem ys = some i ∧
      resetAtBottom items tw ys =
        (items.set i (resetFallingItem item tw).1, (resetFallingItem item tw).2)) ∧
    ((∀ y ∈ ys, 0 ≤ y) → resetAtBottom items tw ys = (items, tw)) := by
  constructor
  · intro i yi item hget hneg hfirst hall hitem
    have hf : findLowestItem ys = some i := by
      have := findLowestAux_min ys i yi hget 0 0 none hneg hfirst hall
      simpa [findLowestItem] using this
    refine ⟨hf, ?_⟩
    simp only [resetAtBottom, hf, resetItemAt, hitem]
  · intro hnn
    have hf : findLowestItem ys = none :=
      findLowestAux_of_ge ys 0 0 none (fun y hy => not_lt.mpr (hnn y hy))
    simp only [resetAtBottom, hf]

/-- Claim C3: on the catch scan of a Tick, a falling object whose sampled
distance is below RANGE and before which no object qualifies is the one
returned by the scan (first qualifying index, not the nearest); with the
mouth-open sample true the eat path then marks exactly that object as not
falling and attaches the shrink tween to it, leaving every other index
unchanged. When no falling object is within range, or the mouth-open sample
is false, the catch phase changes nothing. -/
theorem tick_catch_first_qualifying (items : List Item) (tw : List TweenRec)
    (dists : List Rat) (openness : Rat) :
    (∀ i item d, items.get? i = some item → item.falling = true →
      dists.get? i = some d → d < RANGE →
      (∀ j itj, j < i → items.get? j = some itj → itj.falling = true →
        ∀ dj, dists.get? j = some dj → ¬ dj < RANGE) →
      catchFallingItem items dists = some i ∧
      (eatingSample openness = true →
        (catchPhase items tw dists (eatingSample openness)).1.get? i =
          some { item with falling := false, tween := some tw.length,
                           scale := (RVal.anim tw.length, RVal.anim tw.length,
                                     RVal.anim tw.length) } ∧
        (catchPhase items tw dists (eatingSample openness)).2.get? tw.length =
          some (mkTweenRec 1 0 (1 / 4) 1 false "easeInQuad" (some (Cb.resetItem i))) ∧
        (∀ j, j ≠ i →
          (catchPhase items tw dists (eatingSample openness)).1.get? j = items.get? j))) ∧
    ((∀ j itj, items.get? j = some itj → itj.falling = true →
        ∀ dj, dists.get? j = some dj → ¬ dj < RANGE) →
      catchPhase items tw dists (eatingSample openness) = (items, tw)) ∧
    (eatingSample openness = false →
      catchPhase items tw dists (eatingSample openness) = (items, tw)) := by
  refine ⟨?_, ?_, ?_⟩
  · intro i item d hget hfall hd hdr hnone
    have hcatch : catchFallingItem items dists = some i := by
      have := catchFromIdx_eq_some items dists 0 i item d hget hfall
        (by simpa using hd) hdr
        (fun j itj hj hg hf dj hdj => hnone j itj hj hg hf dj (by simpa using hdj))
      simpa [catchFallingItem] using this
    refine ⟨hcatch, ?_⟩
    intro heat
    have hlen1 : ∀ t, (setTweenDisposed tw t).length = tw.length :=
      setTweenDisposed_length tw
    have heatres : catchPhase items tw dists (eatingSample openness) =
        (items.set i { item with falling := false, tween := some tw.length,
                                 scale := (RVal.anim tw.length, RVal.anim tw.length,
                                           RVal.anim tw.length) },
         (match item.tween with
          | some t => setTweenDisposed tw t
          | none => tw) ++
           [mkTweenRec 1 0 (1 / 4) 1 false "easeInQuad" (some (Cb.resetItem i))]) := by
      simp only [catchPhase, hcatch, eatFallingItem, heat, if_true, hget]
      cases htw : item.tween with
      | none => simp
      | some t => simp [hlen1 t]
    refine ⟨?_, ?_, ?_⟩
    · simp only [heatres, List.get?_set_eq, hget]
      rfl
    · rw [heatres]
      cases htw : item.tween with
      | none => simpa using List.get?_concat_length tw _
      | some t =>
          have := List.get?_concat_length (setTweenDisposed tw t) (mkTweenRec 1 0 (1 / 4) 1 false "easeInQuad" (some (Cb.resetItem i)))
          simpa [hlen1 t] using this
    · intro j hj
      simp only [heatres]
      exact List.get?_set_ne _ items (fun h => hj h.symm)
  · intro hnone
    have hcatch : catchFallingItem items dists = none := by
      have := catchFromIdx_eq_none items dists 0
        (fun j itj hg hf dj hdj => hnone j itj hg hf dj (by simpa using hdj))
      simpa [catchFallingItem] using this
    simp only [catchPhase, hcatch]
  · intro heat
    rw [heat]
    cases hcatch : catchFallingItem items dists with
    | none => simp only [catchPhase, hcatch]
    | some k => simp only [catchPhase, hcatch, eatFallingItem, Bool.false_eq_true, if_false]

/-- Claim C7: the fall-start part of a Tick. When the random index selects
an object that is not falling, it becomes falling and unhidden, a fresh fall
tween from 0 to BOTTOM over SPEED seconds with easeInQuad easing and the
bottom-out callback is attached, the horizontal offset is rewritten to the
randomized value, and the vertical slot is bound to the new tween; every
other object is untouched. When the selected object is already falling, the
fall-start step changes nothing at all. -/
theorem tick_fall_start_spec (items : List Item) (tw : List TweenRec)
    (rnd xRnd : Rat) (idx : Nat) (item : Item)
    (hidx : randIndex rnd items.length = (idx : Int))
    (hget : items.get? idx = some item) :
    (item.falling = false →
      ∃ b, startFallStep items tw rnd xRnd =
        Except.ok (items.set idx
            { item with falling := true, hidden := false,
                        tween := some tw.length,
                        x := xRnd * (2 / 10) - 1 / 10,
                        y := RVal.anim tw.length },
          tw ++ [mkTweenRec 0 BOTTOM SPEED 1 false "easeInQuad" (some Cb.atBottom)],
          b)) ∧
    (item.falling = true →
      startFallStep items tw rnd xRnd = Except.ok (items, tw, true)) := by
  have hscrut : (if 0 ≤ randIndex rnd items.length then
      items.get? (randIndex rnd items.length).toNat else none) = some item := by
    rw [hidx, if_pos (Int.natCast_nonneg idx), Int.toNat_natCast]
    exact hget
  constructor
  · intro hfall
    refine ⟨match item.tween with
            | none => true
            | some t =>
                match tw.get? t with
                | some rec0 => rec0.disposed
                | none => true, ?_⟩
    simp only [startFallStep]
    rw [hscrut, hidx, Int.toNat_natCast]
    simp [hfall]
  · intro hfall
    simp only [startFallStep]
    rw [hscrut]
    simp [hfall]

/-- Claim C7 witness: with one fresh item and random samples 0, the fall
starts and rewrites the item as specified; with one already-falling item,
the same step leaves the pool and the tween store unchanged. -/
theorem tick_fall_start_spec_witness :
    (∃ b, startFallStep [freshItem] [] 0 0 =
      Except.ok ([{ freshItem with falling := true, hidden := false,
                                   tween := some 0,
                                   x := 0 * (2 / 10) - 1 / 10,
                                   y := RVal.anim 0 }],
        [mkTweenRec 0 BOTTOM SPEED 1 false "easeInQuad" (some Cb.atBottom)],
        b)) ∧
    startFallStep [fallingFreshItem] [] 0 0 = Except.ok ([fallingFreshItem], [], true) := by
  constructor
  · exact (tick_fall_start_spec [freshItem] [] 0 0 0 freshItem
      (by simp [randIndex]) rfl).1 rfl
  · exact (tick_fall_start_spec [fallingFreshItem] [] 0 0 0 fallingFreshItem
      (by simp [randIndex]) rfl).2 rfl

/-- Claim C1 counterexample: a reachable execution assigns a new Tween to
an item whose previously attached Tween is not yet disposed. On a one-item
pool: the item falls, is eaten while in range with the mouth open (the eat
path kills the fall tween and attaches a live shrink tween while clearing
falling), and on the next tick the random pick selects the same non-falling
item and assigns a fresh fall tween while the attached shrink tween is still
undisposed — the run ends with the disposal-discipline flag false. -/
theorem tween_discipline_violated_counterexample :
    runDiscipline initialState c1Events = some false := by
  simp [runDiscipline, c1Events, runOk, stepE, smTickStep, initialState,
        startStep, constructedState, tickStep, startFallStep, catchPhase,
        catchFallingItem, catchFromIdx, eatFallingItem, randIndex_zero_one,
        eatingSample_two_tenths, eatingSample_zero, distInRange_far,
        distInRange_near, freshItem, mkTweenRec, setTweenDisposed,
        List.replicate, List.get?]

/-- Claim C1 amended: the eat path and the reset path always dispose the
previously attached tween before replacing or clearing the tween field; the
one exception is the Tick fall-start, which assigns a fresh fall tween
without disposing the old one — and the disposal-discipline flag it reports
is false exactly in the reachable situation where the randomly selected item
is not falling yet still holds an undisposed tween (a live shrink tween from
a recent eat). -/
theorem tween_disposal_discipline_amended :
    (∀ idx items tw item t, items.get? idx = some item → item.tween = some t →
      t < tw.length →
      (eatFallingItem true idx items tw).2.get? t =
        (tw.get? t).map (fun r => { r with disposed := true })) ∧
    (∀ item tw t, item.tween = some t →
      (resetFallingItem item tw).2.get? t =
        (tw.get? t).map (fun r => { r with disposed := true }) ∧
      (resetFallingItem item tw).1.tween = none) ∧
    (∀ items tw rnd xRnd out, startFallStep items tw rnd xRnd = Except.ok out →
      out.2.2 = false →
      ∃ idx item t r, items.get? idx = some item ∧ item.falling = false ∧
        item.tween = some t ∧ tw.get? t = some r ∧ r.disposed = false) := by
  refine ⟨?_, ?_, ?_⟩
  · intro idx items tw item t hget htw hlt
    simp only [eatFallingItem, if_true, hget, htw]
    rw [List.get?_append (by rwa [setTweenDisposed_length])]
    exact setTweenDisposed_get_self tw t
  · intro item tw t htw
    constructor
    · simp only [resetFallingItem, htw]
      exact setTweenDisposed_get_self tw t
    · rfl
  · intro items tw rnd xRnd out hok hflag
    simp only [startFallStep] at hok
    by_cases h0 : 0 ≤ randIndex rnd items.length
    · rw [if_pos h0] at hok
      cases hif : items.get? (randIndex rnd items.length).toNat with
      | none => rw [hif] at hok; exact absurd hok (by simp)
      | some item =>
          rw [hif] at hok
          by_cases hfall : item.falling
          · simp only [hfall, if_true] at hok
            cases hok
            simp at hflag
          · simp only [hfall, Bool.false_eq_true, if_false] at hok
            cases hok
            simp only at hflag
            cases htw : item.tween with
            | none =>
                simp only [htw] at hflag
                exact absurd hflag (by simp)
            | some t =>
                simp only [htw] at hflag
                cases hg : tw.get? t with
                | none =>
                    simp only [hg] at hflag
                    exact absurd hflag (by simp)
                | some r =>
                    simp only [hg] at hflag
                    exact ⟨(randIndex rnd items.length).toNat, item, t, r, hif,
                      Bool.eq_false_iff.mpr hfall, htw, hg, hflag⟩
    · rw [if_neg h0] at hok
      exact absurd hok (by simp)

/-- Claim C8: the controller state only ever advances along the chain
Invalid (construction), Init (set by Start), WaitPool, Tick. Every successful
step keeps the state rank nondecreasing; a state change is either Init to
WaitPool or WaitPool to Tick, the latter only when the asynchronous item
list has arrived (and a WaitPool timer tick advances exactly when it is
non-null); Tick self-loops forever; and no run from the started controller
ever reaches the Catch state. -/
theorem state_machine_progression :
    constructedState.gstate = GState.Invalid ∧
    initialState.gstate = GState.Init ∧
    (∀ s e s' b, stepE s e = Except.ok (s', b) →
      stateRank s.gstate ≤ stateRank s'.gstate ∧
      (s.gstate = GState.Tick → s'.gstate = GState.Tick) ∧
      (s'.gstate ≠ s.gstate →
        (s.gstate = GState.Init ∧ s'.gstate = GState.WaitPool) ∨
        (s.gstate = GState.WaitPool ∧ s'.gstate = GState.Tick ∧ s.items ≠ none))) ∧
    (∀ s rnd xRnd dists op s' b, s.gstate = GState.WaitPool →
      stepE s (Event.smTick rnd xRnd dists op) = Except.ok (s', b) →
      (s'.gstate = GState.Tick ↔ s.items ≠ none)) ∧
    (∀ evs s' b, runOk initialState evs = Except.ok (s', b) →
      s'.gstate ≠ GState.Catch) := by
  refine ⟨rfl, rfl, ?_, ?_, ?_⟩
  · intro s e s' b h
    refine ⟨?_, ?_, ?_⟩
    · rcases stepE_gstate_cases h with h1 | ⟨h1, h2⟩ | ⟨h1, h2, _⟩
      · rw [h1]
      · rw [h1, h2]
        decide
      · rw [h1, h2]
        decide
    · intro hgs
      rcases stepE_gstate_cases h with h1 | ⟨h1, h2⟩ | ⟨h1, h2, _⟩
      · rw [h1, hgs]
      · rw [hgs] at h1
        exact absurd h1 (by decide)
      · rw [hgs] at h1
        exact absurd h1 (by decide)
    · intro hne
      rcases stepE_gstate_cases h with h1 | ⟨h1, h2⟩ | ⟨h1, h2, h3⟩
      · exact absurd h1 hne
      · exact Or.inl ⟨h1, h2⟩
      · exact Or.inr ⟨h1, h2, h3⟩
  · intro s rnd xRnd dists op s' b hgs h
    exact stepE_waitpool_iff hgs h
  · intro evs s' b h
    exact runOk_ncatch evs initialState s' b (by decide) h

end CatchGame
